import Mathlib

/-!
A shallow embedding of the `hil` distributed test orchestrator:

* `src/software/httpdist_server/models.py` — enums and request/response shapes;
* `src/software/httpdist_server/server.py` — the per-session dispatch handlers
  (`fetch_session_tests`, `submit_tests`, `submit_test_report`, `stop_session`,
  `submit_session_env`, `upload_artifact`), the worker registry handlers
  (`_get_worker`, `_get_active_workers`, `_worker_seen`, `get_worker_session`,
  `update_worker`);
* `src/software/hil/utils/pet_name.py` — `get_pet_name`, as called by the server;
* `src/software/hil/scheduling.py` — `HeterogenousLoadScheduling`
  (`_check_collection`, `check_schedule`, `schedule`, `_send_tests`).

Modelling conventions:

* Python dicts keyed by string (the session's `tests` dict, the supabase
  `workers` table, the scheduler's per-node dicts) are modelled as lists in
  insertion order, with first-match lookup and in-place replacement, which is
  exactly the observable behaviour of a Python dict.
* The mutable handler bodies are state-passing functions.  A handler that can
  raise returns the state it left behind *and* an `Except` result, because a
  raised `fastapi.HTTPException` (or an uncaught Python exception) does not
  roll back mutations already made to the in-memory `sessions` dict.
* Each handler first checks `session_id not in sessions` and returns 404;
  the claims below are all per-session, so the handlers are embedded over the
  `Session` value itself (the 404 guard is orthogonal to every claim).
* The filesystem touched by `Session.stop` / `submit_session_env` is modelled
  as the list of existing paths; `Path.unlink` on an absent path raises
  `FileNotFoundError` (Python's `missing_ok` defaults to `False`).
* `datetime` values are modelled as natural-number timestamps.
-/

set_option autoImplicit false

namespace HilDist

/-- `TestStatus` from models.py. -/
inductive TestStatus
  | Pending
  | Running
  | Finished
deriving DecidableEq, Repr

/-- `TestPhase` from models.py. -/
inductive TestPhase
  | Setup
  | Call
  | Teardown
deriving DecidableEq, Repr

/-- `SessionState` from models.py. -/
inductive SessionState
  | Setup
  | Running
  | Stopped
deriving DecidableEq, Repr

/-- `WorkerAction` from models.py. -/
inductive WorkerAction
  | Run
  | Stop
deriving DecidableEq, Repr

/-- The `reports` dict of `Session.Test`: it always has exactly the three
phase keys, each mapped to `None` or a report blob (server.py lines 68-74). -/
structure Reports where
  setup : Option String
  call : Option String
  teardown : Option String
deriving DecidableEq, Repr

/-- The `default_factory` value: all three phases absent. -/
def Reports.empty : Reports := ⟨none, none, none⟩

/-- Read `reports[phase]`. -/
def Reports.get (r : Reports) : TestPhase → Option String
  | .Setup => r.setup
  | .Call => r.call
  | .Teardown => r.teardown

/-- Write `reports[phase] = blob` (unconditional dict assignment). -/
def Reports.put (r : Reports) : TestPhase → String → Reports
  | .Setup, b => { r with setup := some b }
  | .Call, b => { r with call := some b }
  | .Teardown, b => { r with teardown := some b }

/-- `Session.Test` from server.py.  `worker_requirements` is a `set[str]` of
tags, membership-tested and `issubset`-tested only, so a list of tags is a
faithful model.  (models.py declares the *request* field as a nested
`list[WorkerRequirements]`, but the server handlers consume the value as a
flat collection of tag strings; the embedding follows the handlers.) -/
structure Test where
  worker_requirements : List String
  nodeid : String
  status : TestStatus
  reports : Reports
deriving DecidableEq, Repr

/-- `Session.Test(worker_requirements, nodeid)` — a freshly constructed job:
`Pending`, all reports absent (the dataclass defaults). -/
def Test.new (reqs : List String) (nid : String) : Test :=
  ⟨reqs, nid, .Pending, .empty⟩

/-- `Session` from server.py.  `env` is the stored `Path | None`;
`artifacts` is the per-worker blob dict. -/
structure Session where
  session_id : String
  state : SessionState
  tests : List Test
  env : Option String
  artifacts : List (String × String)
deriving DecidableEq, Repr

/-- `ConfiguredWorker` from server.py.  `pet_name` is an `Option` because the
`_get_active_workers` path copies the raw (possibly null) DB column into it. -/
structure ConfiguredWorker where
  worker_id : String
  pet_name : Option String
  tags : List String
  last_seen : Nat
deriving DecidableEq, Repr

/-- The errors the embedded handlers can surface; each constructor records the
`fastapi.HTTPException` (or uncaught Python exception) raised by server.py. -/
inductive ServerError
  | sessionNotFound                          -- 404 "Session not found"
  | noWorkersAvailable                       -- 503 "No workers available"
  | unprocessableTags (tags : List String)   -- 503 "Tests with unprocessable tags: …"
  | testNotFound                             -- 404 "Test not found"
  | reportNotFound                           -- 404 "Test report not found"
  | workerNotFound (worker_id : String)      -- 404 WorkerNotFound / "Worker not found"
  | workerUnconfigured (worker_id : String)  -- 422 WorkerUnconfigured
  | fileNotFoundError                        -- uncaught FileNotFoundError from Path.unlink
  | attributeError                           -- uncaught AttributeError from get_pet_name
deriving DecidableEq, Repr

/-- Python `reqs.issubset(tags)`. -/
def subsetOf (reqs tags : List String) : Bool :=
  reqs.all fun t => tags.contains t

/-- The scan condition of the poll loop (server.py lines 371-373):
`test.status == TestStatus.Pending and test.worker_requirements.issubset(worker.tags)`. -/
def compatPending (tags : List String) (t : Test) : Bool :=
  t.status == .Pending && subsetOf t.worker_requirements tags

/-- `WorkerActionResponse` from models.py. -/
structure WorkerActionResponse where
  action : WorkerAction
  test_now : Option String
  test_next : Option String
deriving DecidableEq, Repr

/-- The poll loop of `fetch_session_tests` (server.py lines 369-378): walk the
jobs in insertion order; the first `Pending` job whose requirements are a
subset of the worker's tags is flipped to `Running` in place and becomes
`test_now`; the next such job (status untouched) becomes `test_next`; the scan
stops after the second match.  Returns the updated job list and the up-to-two
collected node ids. -/
def scanTests (tags : List String) : List Test → List Test × Option String × Option String
  | [] => ([], none, none)
  | t :: ts =>
    if compatPending tags t then
      ({ t with status := .Running } :: ts, some t.nodeid,
        (ts.find? (compatPending tags)).map fun t2 => t2.nodeid)
    else
      let r := scanTests tags ts
      (t :: r.1, r.2.1, r.2.2)

/-- `fetch_session_tests` (server.py lines 352-384), the `poll_for_work`
primitive, per session.  The handler resolves `worker_id` through
`_get_worker`; the embedding takes the resolved `ConfiguredWorker` (the
claims quantify over the worker's tags).  The `_worker_seen` background task
touches only the registry, modelled separately. -/
def fetch_session_tests (worker : ConfiguredWorker) (s : Session) :
    Session × WorkerActionResponse :=
  if s.state = .Stopped then
    (s, ⟨.Stop, none, none⟩)
  else
    let s1 := if s.state = .Setup then { s with state := .Running } else s
    let r := scanTests worker.tags s1.tests
    ({ s1 with tests := r.1 },
      ⟨if r.2.1.isSome then .Run else .Stop, r.2.1, r.2.2⟩)

/-- One test of a `SubmitTestsRequest` (models.py), as consumed by the handler:
a node id plus its requirement tags. -/
structure SubmittedTest where
  worker_requirements : List String
  nodeid : String
deriving DecidableEq, Repr

/-- `sessions[session_id].tests[test.nodeid] = Session.Test(...)` — dict
assignment: replace the first entry with this key in place, else append. -/
def upsertTest : List Test → Test → List Test
  | [], t => [t]
  | x :: xs, t => if x.nodeid = t.nodeid then t :: xs else x :: upsertTest xs t

/-- The inner tag loop of `submit_tests` (server.py lines 221-223): add each
requirement tag that no active worker carries to the `unprocessable_tags` set
(modelled as a dedup-on-add list). -/
def addUnprocessable (worker_tags : List String) (unproc : List String)
    (reqs : List String) : List String :=
  reqs.foldl
    (fun u tag =>
      if worker_tags.contains tag then u
      else if u.contains tag then u else u ++ [tag])
    unproc

/-- `submit_tests` (server.py lines 207-236), per session.  The handler first
fetches `_get_active_workers()`; the resulting list is taken as input.  Note
the order of operations in the source: *every* job of the batch is upserted
into the session's job dict inside the same loop that collects the
unprocessable tags, and the 503 is raised only after the loop. -/
def submit_tests (workers : List ConfiguredWorker) (s : Session)
    (req : List SubmittedTest) : Session × Except ServerError Unit :=
  if workers.isEmpty then
    (s, .error .noWorkersAvailable)
  else
    let worker_tags := workers.foldl (fun acc w => acc ++ w.tags) []
    let r := req.foldl
      (fun (acc : Session × List String) t =>
        ({ acc.1 with tests := upsertTest acc.1.tests (Test.new t.worker_requirements t.nodeid) },
          addUnprocessable worker_tags acc.2 t.worker_requirements))
      (s, [])
    if r.2.isEmpty then (r.1, .ok ()) else (r.1, .error (.unprocessableTags r.2))

/-- `SubmitTestReportRequest` from models.py. -/
structure SubmitTestReportRequest where
  nodeid : String
  phase : TestPhase
  report : String
deriving DecidableEq, Repr

/-- `sessions[session_id].tests[nodeid]` — first-match dict lookup. -/
def lookupTest (tests : List Test) (nid : String) : Option Test :=
  tests.find? fun t => t.nodeid == nid

/-- Mutate the dict entry with the given key in place (first match). -/
def updateTest (tests : List Test) (nid : String) (f : Test → Test) : List Test :=
  match tests with
  | [] => []
  | x :: xs => if x.nodeid = nid then f x :: xs else x :: updateTest xs nid f

/-- The mutation `submit_test_report` performs on the found job
(server.py lines 268-271): unconditionally overwrite `reports[phase]`,
then flip status to `Finished` iff the phase is `Teardown`. -/
def applyReport (req : SubmitTestReportRequest) (t : Test) : Test :=
  let t1 := { t with reports := t.reports.put req.phase req.report }
  if req.phase = .Teardown then { t1 with status := .Finished } else t1

/-- `submit_test_report` (server.py lines 257-273), per session.  The handler
checks only that the node id is known; there is no duplicate-report check and
no session-state check. -/
def submit_test_report (s : Session) (req : SubmitTestReportRequest) :
    Session × Except ServerError Unit :=
  if (lookupTest s.tests req.nodeid).isNone then
    (s, .error .testNotFound)
  else
    ({ s with tests := updateTest s.tests req.nodeid (applyReport req) }, .ok ())

/-- `Path.unlink()` with the default `missing_ok=False`: remove the path, or
raise `FileNotFoundError` when it is absent. -/
def unlink (fs : List String) (p : String) : List String × Option ServerError :=
  if fs.contains p then (fs.erase p, none) else (fs, some .fileNotFoundError)

/-- `Session.stop` (server.py lines 83-86): set state to `Stopped`, then — if
`self.env` is set — unlink the path.  `self.env` is *not* cleared, and the
state assignment precedes the unlink, so an unlink exception escapes with the
state already flipped. -/
def Session.stop (s : Session) (fs : List String) :
    Session × List String × Option ServerError :=
  let s1 := { s with state := SessionState.Stopped }
  match s1.env with
  | none => (s1, fs, none)
  | some p =>
    let r := unlink fs p
    (s1, r.1, r.2)

/-- `stop_session` (server.py lines 179-186), per session: delegates to
`Session.stop`; an exception raised there escapes the handler uncaught. -/
def stop_session (s : Session) (fs : List String) :
    (Session × List String) × Except ServerError Unit :=
  let r := s.stop fs
  ((r.1, r.2.1),
    match r.2.2 with
    | none => .ok ()
    | some e => .error e)

/-- The env file path `ENV_DIR / session_id` used by `submit_session_env`. -/
def envPathFor (sid : String) : String := ".envs/" ++ sid

/-- `submit_session_env` (server.py lines 189-204), per session: write the
uploaded bytes at `ENV_DIR/session_id` (creating the file) and record the path
on the session.  No session-state check. -/
def submit_session_env (s : Session) (fs : List String) :
    Session × List String :=
  let p := envPathFor s.session_id
  ({ s with env := some p }, if fs.contains p then fs else fs ++ [p])

/-- Dict assignment on the artifacts map. -/
def upsertArtifact : List (String × String) → String → String → List (String × String)
  | [], k, v => [(k, v)]
  | x :: xs, k, v => if x.1 = k then (k, v) :: xs else x :: upsertArtifact xs k v

/-- `upload_artifact` (server.py lines 387-404), per session: store the
(base64-decoded) content under the uploading worker's id.  The base64 decode
is modelled as already done (its 400 branch is orthogonal to every claim). -/
def upload_artifact (s : Session) (worker_id content : String) : Session :=
  { s with artifacts := upsertArtifact s.artifacts worker_id content }

/-! ### The worker registry (the supabase `workers` table) -/

/-- One row of the `workers` table.  `tags` and `pet_name` are nullable
columns; a row inserted by `get_worker_session` carries no `tags` value. -/
structure WorkerRow where
  worker_id : String
  pet_name : Option String
  tags : Option (List String)
  last_seen : Nat
deriving DecidableEq, Repr

/-- `WORKER_TIMEOUT = timedelta(minutes=2)`, in seconds. -/
def WORKER_TIMEOUT : Nat := 120

/-- `supabase.table("workers").select("*").eq("worker_id", wid)`. -/
def rowsFor (table : List WorkerRow) (wid : String) : List WorkerRow :=
  table.filter fun r => r.worker_id == wid

/-- `get_pet_name(worker_id)` (pet_name.py lines 93-117) *as server.py calls
it*: both call sites (server.py lines 130 and 308) pass the `str` worker id,
but the function body evaluates `identifier.to_bytes(6)` — an attribute a
Python `str` does not have — so the call raises `AttributeError` for every
string argument, before any hashing. -/
def get_pet_name_of_str (_wid : String) : Except ServerError String :=
  .error .attributeError

/-- `_get_worker` (server.py lines 117-137): look the worker up; no row raises
`WorkerNotFound`; a null `tags` column raises `WorkerUnconfigured`; a null
`pet_name` column falls back to `get_pet_name(worker_id)` — which raises
`AttributeError` on the string id (see `get_pet_name_of_str`). -/
def getWorker (table : List WorkerRow) (wid : String) :
    Except ServerError ConfiguredWorker :=
  match rowsFor table wid with
  | [] => .error (.workerNotFound wid)
  | row :: _ =>
    match row.tags with
    | none => .error (.workerUnconfigured wid)
    | some tags =>
      match row.pet_name with
      | some pn => .ok ⟨row.worker_id, some pn, tags, row.last_seen⟩
      | none =>
        match get_pet_name_of_str wid with
        | .error e => .error e
        | .ok pn => .ok ⟨row.worker_id, some pn, tags, row.last_seen⟩

/-- `_get_active_workers` (server.py lines 140-158): rows whose `last_seen` is
within `WORKER_TIMEOUT` of now and whose `tags` column is non-null.  The raw
(possibly null) `pet_name` column is copied through unchecked. -/
def getActiveWorkers (table : List WorkerRow) (now : Nat) : List ConfiguredWorker :=
  (table.filter fun r =>
      decide (now - WORKER_TIMEOUT ≤ r.last_seen) && r.tags.isSome).map
    fun r => ⟨r.worker_id, r.pet_name, r.tags.getD [], r.last_seen⟩

/-- `_worker_seen` (server.py lines 161-164): refresh `last_seen`. -/
def workerSeen (table : List WorkerRow) (wid : String) (now : Nat) : List WorkerRow :=
  table.map fun r => if r.worker_id == wid then { r with last_seen := now } else r

/-- `SessionResponse | NoSessionResponse` as returned by `get_worker_session`. -/
inductive WorkerSessionResponse
  | session (session_id : String)
  | noSession
deriving DecidableEq, Repr

/-- `get_worker_session` (server.py lines 295-327): on a known worker, refresh
`last_seen`; on first contact, compute `get_pet_name(worker_id)` and insert a
row (with no tags).  The pet-name call raises `AttributeError` on the string
id, so the insert on the first-contact path is never reached.  Afterwards the
worker is resolved via `_get_worker` and the sessions dict is scanned in
order for a `Running` session with any compatible test. -/
def get_worker_session (table : List WorkerRow) (sessionsL : List Session)
    (wid : String) (now : Nat) :
    List WorkerRow × Except ServerError WorkerSessionResponse :=
  let resolve := fun (tb : List WorkerRow) =>
    match getWorker tb wid with
    | .error e => (tb, Except.error e)
    | .ok w =>
      match sessionsL.find? (fun s =>
          s.state == .Running &&
            s.tests.any fun t => subsetOf t.worker_requirements w.tags) with
      | some s => (tb, Except.ok (WorkerSessionResponse.session s.session_id))
      | none => (tb, Except.ok WorkerSessionResponse.noSession)
  if (rowsFor table wid).isEmpty then
    match get_pet_name_of_str wid with
    | .error e => (table, .error e)
    | .ok pn => resolve (table ++ [⟨wid, some pn, none, now⟩])
  else
    resolve (workerSeen table wid now)

/-- `update_worker` (server.py lines 432-449): 404 if the worker id has no
row, else set both the `pet_name` and `tags` columns. -/
def update_worker (table : List WorkerRow) (wid : String)
    (pet : String) (tags : List String) :
    List WorkerRow × Except ServerError Unit :=
  if (rowsFor table wid).isEmpty then
    (table, .error (.workerNotFound wid))
  else
    (table.map fun r =>
        if r.worker_id == wid then { r with pet_name := some pet, tags := some tags } else r,
      .ok ())

/-! ### The in-process heterogeneous scheduler (scheduling.py) -/

/-- `RunsOn` (scheduling.py lines 9-18). -/
structure RunsOn where
  hostname : Option String
deriving DecidableEq, Repr

/-- `RunsOn.check(node)`: no hostname constraint, or the hostname equals the
node's gateway id. -/
def RunsOn.check (r : RunsOn) (nodeId : String) : Bool :=
  r.hostname.isNone || r.hostname == some nodeId

/-- A connected `WorkerController`, reduced to what the scheduler reads of it:
its gateway id and its shutdown flag. -/
structure SchedNode where
  id : String
  shuttingDown : Bool
deriving DecidableEq, Repr

/-- The exceptions `HeterogenousLoadScheduling.schedule` can raise. -/
inductive SchedError
  | assertionFailed                                          -- assert collection_is_completed
  | stopIteration                                            -- next(iter({})) on no collections
  | unschedulable (testName : String) (requiresOneOf : List RunsOn)  -- ValueError of _check_collection
deriving DecidableEq, Repr

/-- `HeterogenousLoadScheduling` state (scheduling.py), with the per-node
dicts keyed by gateway id, plus a log of `send_runtest_some` calls. -/
structure SchedState where
  collectionIsCompleted : Bool
  nodes : List SchedNode
  runs_on_by_test_name : List (String × List RunsOn)
  test_indices_by_worker : List (String × List Nat)
  node2collection : List (String × List String)
  node2pending : List (String × List Nat)
  collection : Option (List String)
  pending : List Nat
  maxschedchunk : Option Nat
  sent : List (String × List Nat)
deriving DecidableEq, Repr

/-- First-match dict read with default. -/
def getAssoc {α : Type} (l : List (String × α)) (k : String) (d : α) : α :=
  match l.find? (fun p => p.1 == k) with
  | some p => p.2
  | none => d

/-- In-place dict update (first match). -/
def setAssoc {α : Type} (l : List (String × α)) (k : String) (f : α → α) :
    List (String × α) :=
  l.map fun p => if p.1 == k then (p.1, f p.2) else p

/-- `self.test_indices_by_worker[node]`. -/
def getIndices (s : SchedState) (nid : String) : List Nat :=
  getAssoc s.test_indices_by_worker nid []

/-- `self.node2pending[node]`. -/
def getNodePending (s : SchedState) (nid : String) : List Nat :=
  getAssoc s.node2pending nid []

/-- `node.shutting_down`. -/
def nodeShuttingDown (s : SchedState) (nid : String) : Bool :=
  s.nodes.any fun n => n.id == nid && n.shuttingDown

/-- `node.shutdown()`: mark the node as shutting down. -/
def shutdownNode (s : SchedState) (nid : String) : SchedState :=
  { s with nodes := s.nodes.map fun n =>
      if n.id == nid then { n with shuttingDown := true } else n }

/-- `_send_tests` (scheduling.py lines 161-168): take the first `num`
compatible pending indices, remove them from `pending`, extend the node's
queue, and call `node.send_runtest_some` (logged in `sent`). -/
def sendTests (s : SchedState) (nid : String) (num : Nat) : SchedState :=
  let compatible := getIndices s nid
  let compatible_pending := s.pending.filter fun i => compatible.contains i
  let tests_for_node := compatible_pending.take num
  if tests_for_node.isEmpty then s
  else
    { s with
      pending := s.pending.filter fun i => !tests_for_node.contains i,
      node2pending := setAssoc s.node2pending nid fun l => l ++ tests_for_node,
      sent := s.sent ++ [(nid, tests_for_node)] }

/-- `check_schedule` (scheduling.py lines 92-122) as invoked from
`schedule()`, i.e. with `duration = 0`, so the `duration >= 0.1` busy early
return is never taken.  (`num_nodes` is never zero on a reachable call: a
node with compatible pending work has a non-empty index list and counts
itself.) -/
def check_schedule (s : SchedState) (nid : String) : SchedState :=
  if nodeShuttingDown s nid then s
  else if s.pending.isEmpty then shutdownNode s nid
  else
    let compatible := getIndices s nid
    let compatible_pending := s.pending.filter fun i => compatible.contains i
    if compatible_pending.isEmpty then shutdownNode s nid
    else
      let num_nodes := (s.nodes.filter fun n => !(getIndices s n.id).isEmpty).length
      let ipn_min := max 2 (compatible_pending.length / num_nodes / 4)
      let ipn_max := max 2 (compatible_pending.length / num_nodes / 2)
      let node_pending := getNodePending s nid
      if node_pending.length < ipn_min then
        let num_send := ipn_max - node_pending.length
        let msc := max (2 - node_pending.length) (s.maxschedchunk.getD 0)
        sendTests s nid (min num_send msc)
      else s

/-- `_check_collection` (scheduling.py lines 75-90): for each collected test
with a non-empty `runs_on` list, some alternative must be satisfied by some
connected node, else a `ValueError` names the test and its requirement list.
Tests are visited in dict (insertion) order; the first failure raises. -/
def checkCollection (nodeIds : List String) :
    List (String × List RunsOn) → Except (String × List RunsOn) Unit
  | [] => .ok ()
  | (name, ros) :: rest =>
    if ros.isEmpty then checkCollection nodeIds rest
    else if ros.any (fun r => nodeIds.any fun n => r.check n) then
      checkCollection nodeIds rest
    else .error (name, ros)

/-- `_check_nodes_have_same_collection` (xdist base class): every node
reported the same collection. -/
def sameCollections : List (String × List String) → Bool
  | [] => true
  | (_, c) :: rest => rest.all fun p => p.2 == c

/-- One iteration of the initial-distribution loop of `schedule()`
(scheduling.py lines 148-155): skip a node with no compatible test, else send
`min(max(compatible//len(nodes)//4, 2), maxschedchunk)` tests to it. -/
def initialSendStep (st : SchedState) (n : SchedNode) : SchedState :=
  let compatible_tests := (getIndices st n.id).length
  if compatible_tests = 0 then st
  else
    let items_per_node := compatible_tests / st.nodes.length
    let node_chunksize := min (max (items_per_node / 4) 2) (st.maxschedchunk.getD 0)
    sendTests st n.id node_chunksize

/-- The initial-distribution loop of `schedule()` over all nodes. -/
def initialSends (s : SchedState) : SchedState :=
  s.nodes.foldl initialSendStep s

/-- `schedule` (scheduling.py lines 124-159).  On a repeat call (collection
already set) it only refills via `check_schedule`; on the first call it
verifies identical collections, runs `_check_collection` (the satisfiability
check), initializes `collection`/`pending`/`maxschedchunk`, performs the
initial sends, and shuts every node down if nothing remained pending. -/
def schedule (s : SchedState) : Except SchedError SchedState :=
  if !s.collectionIsCompleted then .error .assertionFailed
  else
    match s.collection with
    | some _ => .ok (s.nodes.foldl (fun st n => check_schedule st n.id) s)
    | none =>
      if !sameCollections s.node2collection then .ok s
      else
        match checkCollection (s.nodes.map fun n => n.id) s.runs_on_by_test_name with
        | .error e => .error (.unschedulable e.1 e.2)
        | .ok _ =>
          match s.node2collection with
          | [] => .error .stopIteration
          | (_, col) :: _ =>
            let s1 := { s with collection := some col, pending := List.range col.length }
            if col.isEmpty then .ok s1
            else
              let s2 := { s1 with maxschedchunk := some (s1.maxschedchunk.getD col.length) }
              let s3 := initialSends s2
              if s3.pending.isEmpty then
                .ok (s3.nodes.foldl (fun st n => shutdownNode st n.id) s3)
              else .ok s3

/-! ### Lemmas about the poll scan -/

/-- `compatPending` unpacked. -/
theorem compatPending_eq_true {tags : List String} {t : Test}
    (h : compatPending tags t = true) :
    t.status = .Pending ∧ subsetOf t.worker_requirements tags = true := by
  have h' := h
  simp only [compatPending, Bool.and_eq_true, beq_iff_eq] at h'
  exact h'

/-- A `Running` job never satisfies the scan condition. -/
theorem compatPending_of_running {tags : List String} {t : Test}
    (h : t.status = .Running) : compatPending tags t = false := by
  simp [compatPending, h]

/-- Complete characterization of the poll scan: either no job satisfies the
condition and the scan is the identity returning no ids, or the list splits at
the first satisfying job, which is flipped to `Running` and returned first,
with the next satisfying job of the tail returned second (untouched). -/
theorem scan_cases (tags : List String) (l : List Test) :
    ((∀ t ∈ l, compatPending tags t = false) ∧ scanTests tags l = (l, none, none)) ∨
    ∃ pre t post, l = pre ++ t :: post ∧
      (∀ x ∈ pre, compatPending tags x = false) ∧
      compatPending tags t = true ∧
      scanTests tags l = (pre ++ { t with status := .Running } :: post, some t.nodeid,
        (post.find? (compatPending tags)).map fun x => x.nodeid) := by
  induction l with
  | nil => exact Or.inl ⟨by simp, rfl⟩
  | cons t ts ih =>
    by_cases h : compatPending tags t = true
    · exact Or.inr ⟨[], t, ts, rfl, by simp, h, by simp [scanTests, h]⟩
    · have hf : compatPending tags t = false := Bool.eq_false_iff.mpr h
      rcases ih with ⟨hall, heq⟩ | ⟨pre, u, post, hl, hpre, hu, heq⟩
      · refine Or.inl ⟨?_, ?_⟩
        · intro x hx
          rcases List.mem_cons.mp hx with rfl | hx
          · exact hf
          · exact hall x hx
        · simp [scanTests, hf, heq]
      · refine Or.inr ⟨t :: pre, u, post, by rw [hl, List.cons_append], ?_, hu, ?_⟩
        · intro x hx
          rcases List.mem_cons.mp hx with rfl | hx
          · exact hf
          · exact hpre x hx
        · subst hl
          simp [scanTests, hf, heq]

/-- The scan permutes no keys: node ids are preserved positionally. -/
theorem scan_map_nodeid (tags : List String) (l : List Test) :
    (scanTests tags l).1.map (fun t => t.nodeid) = l.map fun t => t.nodeid := by
  induction l with
  | nil => rfl
  | cons t ts ih =>
    by_cases h : compatPending tags t = true
    · simp [scanTests, h]
    · have hf : compatPending tags t = false := Bool.eq_false_iff.mpr h
      simp [scanTests, hf, ih]

/-- First-match lookup lands on the head of the tail when nothing before it
shares the key. -/
theorem lookup_append_cons (pre : List Test) (t : Test) (post : List Test)
    (hpre : ∀ x ∈ pre, x.nodeid ≠ t.nodeid) :
    lookupTest (pre ++ t :: post) t.nodeid = some t := by
  induction pre with
  | nil => simp [lookupTest]
  | cons a as ih =>
    have ha : (a.nodeid == t.nodeid) = false := by
      simp [hpre a (List.mem_cons_self a as)]
    have ih' := ih fun x hx => hpre x (List.mem_cons_of_mem a hx)
    simpa [lookupTest, List.find?_cons, ha] using ih'

/-- With pairwise-distinct keys (a dict), two members sharing a key coincide. -/
theorem mem_eq_of_nodup_nodeid {l : List Test}
    (h : (l.map (fun t => t.nodeid)).Nodup) {a b : Test}
    (ha : a ∈ l) (hb : b ∈ l) (hab : a.nodeid = b.nodeid) : a = b :=
  List.inj_on_of_nodup_map h ha hb hab

/-- Polling a stopped session returns `Stop` without touching anything. -/
theorem fetch_stopped (w : ConfiguredWorker) (s : Session) (h : s.state = .Stopped) :
    fetch_session_tests w s = (s, ⟨.Stop, none, none⟩) := by
  simp [fetch_session_tests, h]

/-- On a non-stopped session the poll's job list is the scan result. -/
theorem fetch_tests_of_not_stopped (w : ConfiguredWorker) (s : Session)
    (h : s.state ≠ .Stopped) :
    (fetch_session_tests w s).1.tests = (scanTests w.tags s.tests).1 := by
  rcases hs : s.state with _ | _ | _ <;> simp [fetch_session_tests, hs] at h ⊢

/-- On a non-stopped session the poll leaves the session `Running`. -/
theorem fetch_state_of_not_stopped (w : ConfiguredWorker) (s : Session)
    (h : s.state ≠ .Stopped) :
    (fetch_session_tests w s).1.state = .Running := by
  rcases hs : s.state with _ | _ | _ <;> simp [fetch_session_tests, hs] at h ⊢

/-- On a non-stopped session `test_now` is the first id the scan collects. -/
theorem fetch_test_now_of_not_stopped (w : ConfiguredWorker) (s : Session)
    (h : s.state ≠ .Stopped) :
    (fetch_session_tests w s).2.test_now = (scanTests w.tags s.tests).2.1 := by
  rcases hs : s.state with _ | _ | _ <;> simp [fetch_session_tests, hs] at h ⊢

/-- A successful first-match lookup yields a member carrying the key. -/
theorem lookup_mem {l : List Test} {nid : String} {t : Test}
    (h : lookupTest l nid = some t) : t ∈ l ∧ t.nodeid = nid := by
  have hm := List.mem_of_find?_eq_some h
  have hp := List.find?_some h
  exact ⟨hm, by simpa using hp⟩

/-- A job whose status is `Running` is never handed out as `test_now` by any
poll, by any worker, as long as it stays `Running`: the scan only collects
`Pending` jobs. -/
theorem running_job_never_handed_out (w : ConfiguredWorker) (s : Session)
    (nid : String) (hnodup : (s.tests.map fun t => t.nodeid).Nodup)
    (hrun : ∃ t, lookupTest s.tests nid = some t ∧ t.status = .Running) :
    (fetch_session_tests w s).2.test_now ≠ some nid := by
  obtain ⟨t, ht, hts⟩ := hrun
  obtain ⟨htmem, htnid⟩ := lookup_mem ht
  intro hcon
  by_cases hstop : s.state = .Stopped
  · rw [fetch_stopped w s hstop] at hcon
    simp at hcon
  · rw [fetch_test_now_of_not_stopped w s hstop] at hcon
    rcases scan_cases w.tags s.tests with ⟨_, heq⟩ | ⟨pre, u, post, hl, _, hu, heq⟩
    · rw [heq] at hcon
      simp at hcon
    · rw [heq] at hcon
      have hunid : u.nodeid = nid := by simpa using hcon
      have humem : u ∈ s.tests := by
        rw [hl]
        exact List.mem_append_right _ (List.mem_cons_self _ _)
      have hut : u = t :=
        mem_eq_of_nodup_nodeid hnodup humem htmem (by rw [hunid, htnid])
      rw [hut, compatPending_of_running hts] at hu
      exact Bool.false_ne_true hu

/-- **C1** (confirmed).  At-most-one assignment: if a poll hands `nid` out as
`test_now`, that job was `Pending` before the poll and is `Running` after it;
moreover — under the per-session mutual exclusion that serializes handler
bodies — *no* poll of *any* session state in which that job is `Running`, by
any worker, returns the same `nid` as `test_now`; in particular no second
poll after the hand-out can, until the job leaves `Running`. -/
theorem at_most_one_assignment (w₁ : ConfiguredWorker) (s : Session) (nid : String)
    (hnodup : (s.tests.map fun t => t.nodeid).Nodup)
    (h1 : (fetch_session_tests w₁ s).2.test_now = some nid) :
    (∃ t, lookupTest s.tests nid = some t ∧ t.status = .Pending) ∧
    (∃ t, lookupTest (fetch_session_tests w₁ s).1.tests nid = some t ∧
      t.status = .Running) ∧
    (∀ (w₂ : ConfiguredWorker) (s₂ : Session),
      (s₂.tests.map fun t => t.nodeid).Nodup →
      (∃ t₂, lookupTest s₂.tests nid = some t₂ ∧ t₂.status = .Running) →
      (fetch_session_tests w₂ s₂).2.test_now ≠ some nid) ∧
    ∀ w₂ : ConfiguredWorker,
      (fetch_session_tests w₂ (fetch_session_tests w₁ s).1).2.test_now ≠ some nid := by
  have hns : s.state ≠ .Stopped := by
    intro h
    rw [fetch_stopped w₁ s h] at h1
    simp at h1
  rw [fetch_test_now_of_not_stopped w₁ s hns] at h1
  rcases scan_cases w₁.tags s.tests with ⟨hall, heq⟩ | ⟨pre, t, post, hl, hpre, ht, heq⟩
  · rw [heq] at h1
    simp at h1
  · rw [heq] at h1
    have hnid : t.nodeid = nid := by simpa using h1
    obtain ⟨htp, hsub⟩ := compatPending_eq_true ht
    have hmap : ((pre.map fun x => x.nodeid) ++
        t.nodeid :: post.map fun x => x.nodeid).Nodup := by
      have hm := hnodup
      rw [hl] at hm
      simpa using hm
    have hkeys : ∀ x ∈ pre, x.nodeid ≠ t.nodeid := by
      intro x hx hxe
      have h1x : x.nodeid ∈ pre.map fun y => y.nodeid := List.mem_map_of_mem _ hx
      have h2x : x.nodeid ∈ t.nodeid :: post.map fun y => y.nodeid := by
        rw [hxe]; exact List.mem_cons_self _ _
      exact (List.nodup_append.mp hmap).2.2 h1x h2x
    have htests' : (fetch_session_tests w₁ s).1.tests =
        pre ++ { t with status := .Running } :: post := by
      rw [fetch_tests_of_not_stopped w₁ s hns, heq]
    have hlook' : lookupTest (fetch_session_tests w₁ s).1.tests nid =
        some { t with status := .Running } := by
      rw [htests', ← hnid]
      exact lookup_append_cons pre _ post hkeys
    have hnodup' : ((fetch_session_tests w₁ s).1.tests.map fun t => t.nodeid).Nodup := by
      rw [fetch_tests_of_not_stopped w₁ s hns, scan_map_nodeid]
      exact hnodup
    refine ⟨⟨t, ?_, htp⟩, ⟨{ t with status := .Running }, hlook', rfl⟩, ?_, ?_⟩
    · rw [hl, ← hnid]
      exact lookup_append_cons pre t post hkeys
    · intro w₂ s₂ hnodup₂ hrun₂
      exact running_job_never_handed_out w₂ s₂ nid hnodup₂ hrun₂
    · intro w₂
      exact running_job_never_handed_out w₂ _ nid hnodup'
        ⟨{ t with status := .Running }, hlook', rfl⟩

def c1worker : ConfiguredWorker := ⟨"w1", some "p", ["cellsim"], 0⟩

def c1sess : Session := ⟨"s1", .Setup, [Test.new ["cellsim"] "A"], none, []⟩

/-- Witness for `at_most_one_assignment` at a concrete session. -/
theorem at_most_one_assignment_witness :
    ((c1sess.tests.map fun t => t.nodeid).Nodup ∧
      (fetch_session_tests c1worker c1sess).2.test_now = some "A") ∧
    ((∃ t, lookupTest c1sess.tests "A" = some t ∧ t.status = .Pending) ∧
      (∃ t, lookupTest (fetch_session_tests c1worker c1sess).1.tests "A" = some t ∧
        t.status = .Running) ∧
      (∀ (w₂ : ConfiguredWorker) (s₂ : Session),
        (s₂.tests.map fun t => t.nodeid).Nodup →
        (∃ t₂, lookupTest s₂.tests "A" = some t₂ ∧ t₂.status = .Running) →
        (fetch_session_tests w₂ s₂).2.test_now ≠ some "A") ∧
      ∀ w₂ : ConfiguredWorker,
        (fetch_session_tests w₂ (fetch_session_tests c1worker c1sess).1).2.test_now ≠
          some "A") :=
  ⟨⟨by decide, by decide⟩,
    at_most_one_assignment c1worker c1sess "A" (by decide) (by decide)⟩

/-- **C2** (corrected: the claim's "assigned_worker set to W" has no
counterpart in the code — see `poll_records_no_assigned_worker`; the rest
holds).  Postcondition of a poll on a `Running` session: either no `Pending`
job is compatible with the worker and the result is `{Stop, null, null}` with
the session untouched (even if `Pending` jobs for other tag sets remain), or
the job list splits at the first compatible `Pending` job, which is flipped to
`Running` and returned as `test_now`, while the next compatible `Pending` job
(if any) is returned as `test_next` with its status untouched; every returned
job has `worker_requirements ⊆ worker.tags`. -/
theorem poll_for_work_postcondition (w : ConfiguredWorker) (s : Session)
    (hrun : s.state = .Running) :
    ((∀ t ∈ s.tests, compatPending w.tags t = false) ∧
        fetch_session_tests w s = (s, ⟨.Stop, none, none⟩)) ∨
      (∃ pre t post,
        s.tests = pre ++ t :: post ∧
        (∀ x ∈ pre, compatPending w.tags x = false) ∧
        t.status = .Pending ∧ subsetOf t.worker_requirements w.tags = true ∧
        (∀ u, post.find? (compatPending w.tags) = some u →
          u.status = .Pending ∧ subsetOf u.worker_requirements w.tags = true) ∧
        fetch_session_tests w s =
          ({ s with tests := pre ++ { t with status := .Running } :: post },
            ⟨.Run, some t.nodeid,
              (post.find? (compatPending w.tags)).map fun x => x.nodeid⟩)) := by
  rcases scan_cases w.tags s.tests with ⟨hall, heq⟩ | ⟨pre, t, post, hl, hpre, ht, heq⟩
  · left
    refine ⟨hall, ?_⟩
    simp [fetch_session_tests, hrun, heq]
    rw [← hrun]
  · right
    obtain ⟨htp, hsub⟩ := compatPending_eq_true ht
    refine ⟨pre, t, post, hl, hpre, htp, hsub, ?_, ?_⟩
    · intro u hu
      exact compatPending_eq_true (List.find?_some hu)
    · simp [fetch_session_tests, hrun, heq]

def c2sess : Session := ⟨"s2", .Running, [Test.new [] "A"], none, []⟩

def c2workerL : ConfiguredWorker := ⟨"wL", some "pl", [], 0⟩

def c2workerR : ConfiguredWorker := ⟨"wR", some "pr", [], 0⟩

/-- Counterexample to C2 as stated: the claim requires the hand-out to set
`assigned_worker = W` on the job, but `Session.Test` (server.py lines 62-74)
has no `assigned_worker` field and `fetch_session_tests` records nothing
worker-specific.  Concretely, two *distinct* workers polling the same session
hand out the same job and leave behind *identical* complete session states, so
the post-state determines no assigned worker. -/
theorem poll_records_no_assigned_worker :
    c2workerL ≠ c2workerR ∧
    (fetch_session_tests c2workerL c2sess).2.test_now = some "A" ∧
    (fetch_session_tests c2workerR c2sess).2.test_now = some "A" ∧
    (fetch_session_tests c2workerL c2sess).1 = (fetch_session_tests c2workerR c2sess).1 := by
  decide

def c2wsess : Session :=
  ⟨"s2w", .Running, [Test.new ["rig1"] "B", Test.new [] "A"], none, []⟩

def c2wworker : ConfiguredWorker := ⟨"w2", some "p2", [], 0⟩

/-- Witness for `poll_for_work_postcondition` at a concrete `Running`
session. -/
theorem poll_for_work_postcondition_witness :
    c2wsess.state = .Running ∧
    (((∀ t ∈ c2wsess.tests, compatPending c2wworker.tags t = false) ∧
        fetch_session_tests c2wworker c2wsess = (c2wsess, ⟨.Stop, none, none⟩)) ∨
      (∃ pre t post,
        c2wsess.tests = pre ++ t :: post ∧
        (∀ x ∈ pre, compatPending c2wworker.tags x = false) ∧
        t.status = .Pending ∧ subsetOf t.worker_requirements c2wworker.tags = true ∧
        (∀ u, post.find? (compatPending c2wworker.tags) = some u →
          u.status = .Pending ∧ subsetOf u.worker_requirements c2wworker.tags = true) ∧
        fetch_session_tests c2wworker c2wsess =
          ({ c2wsess with tests := pre ++ { t with status := .Running } :: post },
            ⟨.Run, some t.nodeid,
              (post.find? (compatPending c2wworker.tags)).map fun x => x.nodeid⟩))) :=
  ⟨rfl, poll_for_work_postcondition c2wworker c2wsess rfl⟩

/-! ### Lemmas about report submission and job upserts -/

/-- `applyReport` never changes the job's key. -/
theorem applyReport_nodeid (req : SubmitTestReportRequest) (t : Test) :
    (applyReport req t).nodeid = t.nodeid := by
  by_cases h : req.phase = .Teardown <;> simp [applyReport, h]

/-- `applyReport` written as a single record update. -/
theorem applyReport_eq (req : SubmitTestReportRequest) (t : Test) :
    applyReport req t =
      { t with
        reports := t.reports.put req.phase req.report,
        status := if req.phase = .Teardown then .Finished else t.status } := by
  by_cases h : req.phase = .Teardown <;> simp [applyReport, h]

/-- First-match lookup after first-match in-place update. -/
theorem lookup_updateTest (l : List Test) (nid : String) (f : Test → Test)
    (hf : ∀ t, (f t).nodeid = t.nodeid) :
    lookupTest (updateTest l nid f) nid = (lookupTest l nid).map f := by
  induction l with
  | nil => rfl
  | cons x xs ih =>
    by_cases h : x.nodeid = nid
    · simp [updateTest, lookupTest, h, hf x]
    · have hb : (x.nodeid == nid) = false := by simp [h]
      simp only [updateTest, if_neg h]
      simp only [lookupTest, List.find?_cons, hb, cond_false]
      exact ih

/-- Lookup of the upserted key finds the new value. -/
theorem lookup_upsert_self (l : List Test) (t : Test) :
    lookupTest (upsertTest l t) t.nodeid = some t := by
  induction l with
  | nil => simp [upsertTest, lookupTest]
  | cons x xs ih =>
    by_cases h : x.nodeid = t.nodeid
    · simp [upsertTest, lookupTest, h]
    · have hb : (x.nodeid == t.nodeid) = false := by simp [h]
      simp only [upsertTest, if_neg h]
      simp only [lookupTest, List.find?_cons, hb, cond_false]
      exact ih

/-- Upserting one key does not disturb lookups of another. -/
theorem lookup_upsert_other (l : List Test) (t : Test) (nid : String)
    (h : t.nodeid ≠ nid) :
    lookupTest (upsertTest l t) nid = lookupTest l nid := by
  have hb : (t.nodeid == nid) = false := by simp [h]
  induction l with
  | nil => simp [upsertTest, lookupTest, List.find?_cons, hb]
  | cons x xs ih =>
    by_cases hx : x.nodeid = t.nodeid
    · simp [upsertTest, lookupTest, hx, List.find?_cons, hb]
    · simp only [upsertTest, if_neg hx]
      by_cases hxn : (x.nodeid == nid) = true
      · simp [lookupTest, List.find?_cons, hxn]
      · have hxn' : (x.nodeid == nid) = false := Bool.eq_false_iff.mpr hxn
        simp only [lookupTest, List.find?_cons, hxn', cond_false]
        exact ih

/-- **C3** (corrected: there is no `DuplicatePhaseReport` anywhere in the
code — see `duplicate_report_overwrites`).  For any known node id,
`submit_test_report` succeeds *unconditionally* and stores the blob at the
given phase, silently replacing any report already present (in any
submission order); the status flips to `Finished` exactly on a Teardown
write. -/
theorem submit_phase_report_overwrites (s : Session) (req : SubmitTestReportRequest)
    (t : Test) (ht : lookupTest s.tests req.nodeid = some t) :
    (submit_test_report s req).2 = .ok () ∧
    lookupTest (submit_test_report s req).1.tests req.nodeid =
      some { t with
        reports := t.reports.put req.phase req.report,
        status := if req.phase = .Teardown then .Finished else t.status } := by
  have hsome : (lookupTest s.tests req.nodeid).isNone = false := by
    rw [ht]; rfl
  constructor
  · simp [submit_test_report, hsome]
  · simp only [submit_test_report, hsome, Bool.false_eq_true, if_false]
    rw [lookup_updateTest s.tests req.nodeid _ (applyReport_nodeid req), ht,
      Option.map_some']
    rw [applyReport_eq]

def c3sess : Session :=
  ⟨"s3", .Running, [⟨[], "n1", .Running, ⟨some "r1", none, none⟩⟩], none, []⟩

def c3req : SubmitTestReportRequest := ⟨"n1", .Setup, "r2"⟩

/-- Counterexample to C3 as stated: job `n1` already has a Setup report
`"r1"`, yet a second submission for the same `(node_id, phase)` pair succeeds
(server.py lines 257-273 perform no duplicate check) and the stored report is
replaced by `"r2"` — the claim requires a `DuplicatePhaseReport` failure with
the stored report unchanged. -/
theorem duplicate_report_overwrites :
    ((lookupTest c3sess.tests "n1").map fun t => t.reports.setup) = some (some "r1") ∧
    (submit_test_report c3sess c3req).2 = .ok () ∧
    ((lookupTest (submit_test_report c3sess c3req).1.tests "n1").map
      fun t => t.reports.setup) = some (some "r2") :=
  ⟨rfl, rfl, rfl⟩

def c3wtest : Test := ⟨[], "n2", .Running, ⟨some "ra", none, none⟩⟩

def c3wsess : Session := ⟨"s3w", .Running, [c3wtest], none, []⟩

def c3wreq : SubmitTestReportRequest := ⟨"n2", .Teardown, "rb"⟩

/-- Witness for `submit_phase_report_overwrites` at a concrete session. -/
theorem submit_phase_report_overwrites_witness :
    lookupTest c3wsess.tests "n2" = some c3wtest ∧
    ((submit_test_report c3wsess c3wreq).2 = .ok () ∧
      lookupTest (submit_test_report c3wsess c3wreq).1.tests "n2" =
        some { c3wtest with
          reports := c3wtest.reports.put c3wreq.phase c3wreq.report,
          status := if c3wreq.phase = .Teardown then .Finished else c3wtest.status }) :=
  ⟨by decide, submit_phase_report_overwrites c3wsess c3wreq c3wtest (by decide)⟩

def c4worker : ConfiguredWorker := ⟨"w4", some "p4", ["cellsim"], 0⟩

def c4sess : Session := ⟨"s4", .Setup, [], none, []⟩

def c4batch : List SubmittedTest := [⟨["rig9"], "C"⟩]

/-- **C4** (code_bug).  Submitting job `C` requiring tag `rig9` with only a
`cellsim` worker active does raise the error listing the unmet tag, but the
loop in server.py lines 220-227 has already upserted every job of the batch
into the session's job map before the raise, so `C` *is* admitted — the
spec's all-or-nothing rejection (job map unchanged) is violated. -/
theorem submit_tests_admits_batch_despite_error :
    (submit_tests [c4worker] c4sess c4batch).2 =
      .error (.unprocessableTags ["rig9"]) ∧
    lookupTest (submit_tests [c4worker] c4sess c4batch).1.tests "C" =
      some (Test.new ["rig9"] "C") :=
  ⟨rfl, rfl⟩

def c5fs : List String := [envPathFor "s5"]

def c5sess : Session := ⟨"s5", .Running, [], some (envPathFor "s5"), []⟩

/-- **C5** (code_bug).  With an env blob uploaded, the first `stop_session`
succeeds (state `Stopped`, env file deleted), but `Session.stop` never clears
`self.env`, so the second call reaches `self.env.unlink()` on the
already-deleted path and raises `FileNotFoundError` instead of being an
idempotent no-op. -/
theorem stop_session_second_call_fails :
    (stop_session c5sess c5fs).2 = .ok () ∧
    (stop_session c5sess c5fs).1.1.state = .Stopped ∧
    (stop_session c5sess c5fs).1.1.env = some (envPathFor "s5") ∧
    (stop_session (stop_session c5sess c5fs).1.1 (stop_session c5sess c5fs).1.2).2 =
      .error .fileNotFoundError :=
  ⟨rfl, rfl, rfl, rfl⟩

/-! ### Lemmas about `submit_tests` -/

/-- The job-map component of the `submit_tests` loop is the fold of the
per-test upserts. -/
theorem submit_fold_tests (ts : List SubmittedTest) (s : Session)
    (u : List String) (wt : List String) :
    (ts.foldl
        (fun (acc : Session × List String) t =>
          ({ acc.1 with
              tests := upsertTest acc.1.tests (Test.new t.worker_requirements t.nodeid) },
            addUnprocessable wt acc.2 t.worker_requirements))
        (s, u)).1.tests =
      ts.foldl (fun l t => upsertTest l (Test.new t.worker_requirements t.nodeid))
        s.tests := by
  induction ts generalizing s u with
  | nil => rfl
  | cons a as ih =>
    simpa using ih
      { s with tests := upsertTest s.tests (Test.new a.worker_requirements a.nodeid) }
      (addUnprocessable wt u a.worker_requirements)

/-- The `submit_tests` loop never touches the session state. -/
theorem submit_fold_state (ts : List SubmittedTest) (s : Session)
    (u : List String) (wt : List String) :
    (ts.foldl
        (fun (acc : Session × List String) t =>
          ({ acc.1 with
              tests := upsertTest acc.1.tests (Test.new t.worker_requirements t.nodeid) },
            addUnprocessable wt acc.2 t.worker_requirements))
        (s, u)).1.state = s.state := by
  induction ts generalizing s u with
  | nil => rfl
  | cons a as ih =>
    simpa using ih
      { s with tests := upsertTest s.tests (Test.new a.worker_requirements a.nodeid) }
      (addUnprocessable wt u a.worker_requirements)

/-- With at least one active worker, the job map after `submit_tests` is the
fold of the upserts — whether or not the unprocessable-tag error is raised. -/
theorem submit_tests_tests (workers : List ConfiguredWorker) (s : Session)
    (ts : List SubmittedTest) (hw : workers.isEmpty = false) :
    (submit_tests workers s ts).1.tests =
      ts.foldl (fun l t => upsertTest l (Test.new t.worker_requirements t.nodeid))
        s.tests := by
  simp only [submit_tests, hw, Bool.false_eq_true, if_false]
  split
  · exact submit_fold_tests ts s [] _
  · exact submit_fold_tests ts s [] _

/-- A fold of upserts for keys other than `nid` does not affect `nid`. -/
theorem lookup_foldl_upsert_notmem (ts : List SubmittedTest) (l : List Test)
    (nid : String) (h : ∀ x ∈ ts, x.nodeid ≠ nid) :
    lookupTest
        (ts.foldl (fun acc t => upsertTest acc (Test.new t.worker_requirements t.nodeid)) l)
        nid =
      lookupTest l nid := by
  induction ts generalizing l with
  | nil => rfl
  | cons a as ih =>
    rw [List.foldl_cons, ih _ fun x hx => h x (List.mem_cons_of_mem _ hx)]
    exact lookup_upsert_other l _ nid (h a (List.mem_cons_self _ _))

/-- **C6** (corrected: resubmission also resets the reports — see
`resubmission_clears_reports`).  Resubmitting a node id replaces the job
wholesale with a fresh `Session.Test`: status reset to `Pending`,
requirements replaced, and the existing phase reports cleared. -/
theorem resubmission_resets_job (workers : List ConfiguredWorker) (s : Session)
    (ts1 ts2 : List SubmittedTest) (e : SubmittedTest)
    (hw : workers.isEmpty = false)
    (hlast : ∀ x ∈ ts2, x.nodeid ≠ e.nodeid) :
    lookupTest (submit_tests workers s (ts1 ++ e :: ts2)).1.tests e.nodeid =
      some (Test.new e.worker_requirements e.nodeid) := by
  rw [submit_tests_tests workers s _ hw, List.foldl_append, List.foldl_cons,
    lookup_foldl_upsert_notmem ts2 _ _ hlast]
  exact lookup_upsert_self _ _

def c6worker : ConfiguredWorker := ⟨"w6", some "p6", [], 0⟩

def c6sess : Session :=
  ⟨"s6", .Running, [⟨[], "n6", .Finished, ⟨some "r1", some "r2", some "r3"⟩⟩], none, []⟩

def c6batch : List SubmittedTest := [⟨[], "n6"⟩]

/-- Counterexample to C6 as stated: job `n6` has all three phase reports
recorded; resubmitting `n6` succeeds and leaves the job with *no* reports —
the handler constructs a fresh `Session.Test` rather than preserving the
existing reports as the claim requires. -/
theorem resubmission_clears_reports :
    ((lookupTest c6sess.tests "n6").map fun t => t.reports) =
      some (⟨some "r1", some "r2", some "r3"⟩ : Reports) ∧
    (submit_tests [c6worker] c6sess c6batch).2 = .ok () ∧
    ((lookupTest (submit_tests [c6worker] c6sess c6batch).1.tests "n6").map
      fun t => t.reports) = some Reports.empty :=
  ⟨rfl, rfl, rfl⟩

def c6wworker : ConfiguredWorker := ⟨"w6w", some "p", ["b"], 0⟩

def c6wsess : Session :=
  ⟨"s6w", .Running, [⟨["a"], "n7", .Running, ⟨some "r", none, none⟩⟩], none, []⟩

/-- Witness for `resubmission_resets_job` at a concrete session. -/
theorem resubmission_resets_job_witness :
    ([c6wworker].isEmpty = false ∧
      ∀ x ∈ ([] : List SubmittedTest), x.nodeid ≠ "n7") ∧
    lookupTest
        (submit_tests [c6wworker] c6wsess
          ([] ++ (⟨["b"], "n7"⟩ : SubmittedTest) :: [])).1.tests "n7" =
      some (Test.new ["b"] "n7") :=
  ⟨⟨rfl, by simp⟩,
    resubmission_resets_job [c6wworker] c6wsess [] [] ⟨["b"], "n7"⟩ rfl (by simp)⟩

/-! ### Stopped sessions -/

/-- `submit_test_report` never touches the session state. -/
theorem submit_test_report_state (s : Session) (req : SubmitTestReportRequest) :
    (submit_test_report s req).1.state = s.state := by
  by_cases h : (lookupTest s.tests req.nodeid).isNone = true <;>
    simp [submit_test_report, h]

/-- `submit_tests` never touches the session state, on any branch. -/
theorem submit_tests_state (workers : List ConfiguredWorker) (s : Session)
    (ts : List SubmittedTest) :
    (submit_tests workers s ts).1.state = s.state := by
  by_cases hw : workers.isEmpty = true
  · simp [submit_tests, hw]
  · have hw' : workers.isEmpty = false := Bool.eq_false_iff.mpr hw
    simp only [submit_tests, hw', Bool.false_eq_true, if_false]
    split
    · exact submit_fold_state ts s [] _
    · exact submit_fold_state ts s [] _

/-- `stop_session` always leaves the session `Stopped` (even when the env
unlink raises, since the state assignment comes first). -/
theorem stop_session_state (s : Session) (fs : List String) :
    (stop_session s fs).1.1.state = .Stopped := by
  rcases h : s.env with _ | p <;> simp [stop_session, Session.stop, h]

/-- One mutating per-session server call, over the session plus the env-file
store.  These are exactly the server.py handlers that write to a session or
its env file. -/
inductive SessionStep : Session × List String → Session × List String → Prop
  | poll (w : ConfiguredWorker) (s : Session) (fs : List String) :
      SessionStep (s, fs) ((fetch_session_tests w s).1, fs)
  | submitTests (workers : List ConfiguredWorker) (req : List SubmittedTest)
      (s : Session) (fs : List String) :
      SessionStep (s, fs) ((submit_tests workers s req).1, fs)
  | submitReport (req : SubmitTestReportRequest) (s : Session) (fs : List String) :
      SessionStep (s, fs) ((submit_test_report s req).1, fs)
  | stopCall (s : Session) (fs : List String) :
      SessionStep (s, fs) ((stop_session s fs).1.1, (stop_session s fs).1.2)
  | submitEnv (s : Session) (fs : List String) :
      SessionStep (s, fs) (submit_session_env s fs)
  | uploadArtifact (wid content : String) (s : Session) (fs : List String) :
      SessionStep (s, fs) (upload_artifact s wid content, fs)

/-- No single server call moves a session out of `Stopped`. -/
theorem step_preserves_stopped {p q : Session × List String}
    (h : SessionStep p q) (hs : p.1.state = .Stopped) : q.1.state = .Stopped := by
  cases h with
  | poll w s fs =>
    rw [fetch_stopped w s hs]
    exact hs
  | submitTests workers req s fs =>
    rw [submit_tests_state]
    exact hs
  | submitReport req s fs =>
    rw [submit_test_report_state]
    exact hs
  | stopCall s fs => exact stop_session_state s fs
  | submitEnv s fs => exact hs
  | uploadArtifact wid content s fs => exact hs

/-- **C7** (corrected: submissions and reports are *not* rejected after a stop
— see `stopped_session_accepts_writes`; the rest holds).  Stopped is
terminal: along any finite sequence of per-session server calls a `Stopped`
session stays `Stopped`, and every poll of a `Stopped` session immediately
returns action `Stop` with both jobs null, leaving the session untouched. -/
theorem stopped_is_terminal (s s' : Session) (fs fs' : List String)
    (hsteps : Relation.ReflTransGen SessionStep (s, fs) (s', fs'))
    (hstop : s.state = .Stopped) :
    s'.state = .Stopped ∧
    ∀ w : ConfiguredWorker, fetch_session_tests w s' = (s', ⟨.Stop, none, none⟩) := by
  have hterm : ∀ p q : Session × List String,
      Relation.ReflTransGen SessionStep p q → p.1.state = .Stopped →
        q.1.state = .Stopped := by
    intro p q h hp
    induction h with
    | refl => exact hp
    | tail _ hstep ih => exact step_preserves_stopped hstep ih
  have h' : s'.state = .Stopped := hterm (s, fs) (s', fs') hsteps hstop
  exact ⟨h', fun w => fetch_stopped w s' h'⟩

def c7sess : Session :=
  ⟨"s7", .Stopped, [⟨[], "n70", .Running, Reports.empty⟩], none, []⟩

def c7worker : ConfiguredWorker := ⟨"w7", some "p7", ["x"], 0⟩

/-- Counterexample to C7 as stated: on a `Stopped` session both
`submit_test_report` and `submit_tests` succeed (neither handler inspects the
session state — server.py lines 207-236 and 257-273) and the stopped
session's job map is mutated, where the claim requires both calls to be
rejected. -/
theorem stopped_session_accepts_writes :
    c7sess.state = .Stopped ∧
    (submit_test_report c7sess ⟨"n70", .Call, "r"⟩).2 = .ok () ∧
    (submit_tests [c7worker] c7sess [⟨["x"], "n71"⟩]).2 = .ok () ∧
    lookupTest (submit_tests [c7worker] c7sess [⟨["x"], "n71"⟩]).1.tests "n71" =
      some (Test.new ["x"] "n71") :=
  ⟨rfl, rfl, rfl, rfl⟩

def c7wsess : Session := ⟨"s7w", .Stopped, [], none, []⟩

/-- Witness for `stopped_is_terminal` at a concrete stopped session. -/
theorem stopped_is_terminal_witness :
    (Relation.ReflTransGen SessionStep (c7wsess, ([] : List String)) (c7wsess, []) ∧
      c7wsess.state = .Stopped) ∧
    (c7wsess.state = .Stopped ∧
      ∀ w : ConfiguredWorker,
        fetch_session_tests w c7wsess = (c7wsess, ⟨.Stop, none, none⟩)) :=
  ⟨⟨Relation.ReflTransGen.refl, rfl⟩,
    stopped_is_terminal c7wsess c7wsess [] [] Relation.ReflTransGen.refl rfl⟩

/-! ### Scheduler lemmas -/

/-- `_send_tests` touches only `pending`, `node2pending` and the send log. -/
theorem sendTests_collection (s : SchedState) (nid : String) (num : Nat) :
    (sendTests s nid num).collection = s.collection := by
  unfold sendTests
  dsimp only
  split
  · rfl
  · rfl

/-- One initial-distribution iteration preserves the collection. -/
theorem initialSendStep_collection (st : SchedState) (n : SchedNode) :
    (initialSendStep st n).collection = st.collection := by
  unfold initialSendStep
  dsimp only
  split
  · rfl
  · exact sendTests_collection st n.id _

/-- The initial distribution preserves the collection. -/
theorem initialSends_collection (s : SchedState) :
    (initialSends s).collection = s.collection := by
  have h : ∀ (ns : List SchedNode) (st : SchedState),
      (ns.foldl initialSendStep st).collection = st.collection := by
    intro ns
    induction ns with
    | nil => intro st; rfl
    | cons n ns ih =>
      intro st
      exact (ih (initialSendStep st n)).trans (initialSendStep_collection st n)
  exact h s.nodes s

/-- Shutting nodes down preserves the collection. -/
theorem foldl_shutdown_collection (ns : List SchedNode) (s : SchedState) :
    (ns.foldl (fun st n => shutdownNode st n.id) s).collection = s.collection := by
  induction ns generalizing s with
  | nil => rfl
  | cons n ns ih => exact ih (shutdownNode s n.id)

/-- `schedule` on the first call, after the satisfiability check passes:
initialize the collection and pending range, default `maxschedchunk`, run the
initial sends, and shut everything down if nothing remained pending. -/
theorem schedule_first_call (s : SchedState) (n0 : String) (col : List String)
    (rest : List (String × List String))
    (h1 : s.collectionIsCompleted = true) (hnone : s.collection = none)
    (hsame : sameCollections s.node2collection = true)
    (hcols : s.node2collection = (n0, col) :: rest)
    (hok : checkCollection (s.nodes.map fun n => n.id) s.runs_on_by_test_name = .ok ()) :
    schedule s =
      (let s1 : SchedState :=
        { s with collection := some col, pending := List.range col.length }
      if col.isEmpty then .ok s1
      else
        let s2 := { s1 with maxschedchunk := some (s1.maxschedchunk.getD col.length) }
        let s3 := initialSends s2
        if s3.pending.isEmpty then
          .ok (s3.nodes.foldl (fun st n => shutdownNode st n.id) s3)
        else .ok s3) := by
  have hsame2 : sameCollections ((n0, col) :: rest) = true := hcols ▸ hsame
  simp [schedule, h1, hnone, hsame2, hcols, hok]

/-- Picking the surviving `.ok` branch of a boolean choice. -/
theorem exists_ok_of_both {α : Type} (b : Bool) (x y : α) (P : α → Prop)
    (hx : P x) (hy : P y) :
    ∃ z, (if b then (Except.ok x : Except SchedError α) else .ok y) = .ok z ∧ P z := by
  cases b
  · exact ⟨y, rfl, hy⟩
  · exact ⟨x, rfl, hx⟩

/-- **C8** (confirmed).  The satisfiability check `_check_collection` governs
exactly the first `schedule()` call: on a first call (no collection yet, all
nodes reported the same non-empty set of collections), `schedule` aborts with
the unschedulable error naming the first failing test and its requirement
alternatives iff the check fails, and when the check passes it proceeds to
install the collection and perform the initial sends; on every later call
(collection already set) the check is not consulted — `schedule` simply
refills every node via `check_schedule` and cannot raise the unschedulable
error. -/
theorem scheduling_check_placement (s : SchedState)
    (h1 : s.collectionIsCompleted = true) :
    (s.collection = none → sameCollections s.node2collection = true →
      ∀ n0 col rest, s.node2collection = (n0, col) :: rest →
        (∀ name ros,
          checkCollection (s.nodes.map fun n => n.id) s.runs_on_by_test_name =
              .error (name, ros) →
            schedule s = .error (.unschedulable name ros)) ∧
        (checkCollection (s.nodes.map fun n => n.id) s.runs_on_by_test_name = .ok () →
          ∃ s', schedule s = .ok s' ∧ s'.collection = some col)) ∧
    (∀ c, s.collection = some c →
      schedule s = .ok (s.nodes.foldl (fun st n => check_schedule st n.id) s)) := by
  constructor
  · intro hnone hsame n0 col rest hcols
    constructor
    · intro name ros herr
      simp [schedule, h1, hnone, hsame, herr]
    · intro hok
      rw [schedule_first_call s n0 col rest h1 hnone hsame hcols hok]
      dsimp only
      by_cases hcol : col.isEmpty = true
      · simp only [hcol, if_true]
        exact ⟨_, rfl, rfl⟩
      · simp only [Bool.eq_false_iff.mpr hcol, Bool.false_eq_true, if_false]
        exact exists_ok_of_both _ _ _ _
          (by rw [foldl_shutdown_collection, initialSends_collection])
          (by rw [initialSends_collection])
  · intro c hc
    simp [schedule, h1, hc]

def c8node : SchedNode := ⟨"g1", false⟩

def c8state : SchedState :=
  { collectionIsCompleted := true
    nodes := [c8node]
    runs_on_by_test_name := [("ta", []), ("tb", [⟨some "g9"⟩])]
    test_indices_by_worker := [("g1", [0])]
    node2collection := [("g1", ["ta", "tb"])]
    node2pending := [("g1", [])]
    collection := none
    pending := []
    maxschedchunk := none
    sent := [] }

/-- Witness for `scheduling_check_placement` at a concrete scheduler state
(one connected node `g1`; test `tb` requires the absent host `g9`). -/
theorem scheduling_check_placement_witness :
    c8state.collectionIsCompleted = true ∧
    ((c8state.collection = none → sameCollections c8state.node2collection = true →
      ∀ n0 col rest, c8state.node2collection = (n0, col) :: rest →
        (∀ name ros,
          checkCollection (c8state.nodes.map fun n => n.id)
              c8state.runs_on_by_test_name = .error (name, ros) →
            schedule c8state = .error (.unschedulable name ros)) ∧
        (checkCollection (c8state.nodes.map fun n => n.id)
            c8state.runs_on_by_test_name = .ok () →
          ∃ s', schedule c8state = .ok s' ∧ s'.collection = some col)) ∧
      (∀ c, c8state.collection = some c →
        schedule c8state =
          .ok (c8state.nodes.foldl (fun st n => check_schedule st n.id) c8state))) :=
  ⟨rfl, scheduling_check_placement c8state rfl⟩

/-- **C9** (confirmed).  With no active workers, `submit_tests` raises
"No workers available" before the tag loop and before any upsert runs: the
session comes back unchanged, for *every* batch — including batches whose
jobs all have empty (trivially satisfiable) requirements. -/
theorem no_workers_rejects_batch (table : List WorkerRow) (now : Nat) (s : Session)
    (req : List SubmittedTest) (h : getActiveWorkers table now = []) :
    submit_tests (getActiveWorkers table now) s req =
      (s, .error .noWorkersAvailable) := by
  rw [h]
  rfl

def c9table : List WorkerRow := [⟨"w9", some "p", none, 50⟩]

def c9sess : Session := ⟨"s9", .Setup, [], none, []⟩

/-- Witness for `no_workers_rejects_batch`: the only registry row is an
unconfigured worker (null tags), so no worker is active, and even a batch
whose single job has no requirements is rejected wholesale. -/
theorem no_workers_rejects_batch_witness :
    getActiveWorkers c9table 60 = [] ∧
    submit_tests (getActiveWorkers c9table 60) c9sess [⟨[], "A"⟩] =
      (c9sess, .error .noWorkersAvailable) :=
  ⟨rfl, no_workers_rejects_batch c9table 60 c9sess [⟨[], "A"⟩] rfl⟩

/-- **C10** (code_bug).  On a worker's first contact, `get_worker_session`
evaluates `get_pet_name(worker_id)` *before* the registry insert
(server.py lines 307-315); the call raises `AttributeError` because
pet_name.py computes `identifier.to_bytes(6)` on the string id.  The request
therefore fails with an uncaught exception — not `WorkerUnconfigured` — and
no row is registered, so a subsequent `update_worker` for the same id fails
with "Worker not found" instead of configuring the worker. -/
theorem first_contact_crashes_before_registration :
    get_worker_session [] [] "aa:bb:cc:dd:ee:ff" 0 =
      ([], .error .attributeError) ∧
    (update_worker [] "aa:bb:cc:dd:ee:ff" "pet" ["cellsim"]).2 =
      .error (.workerNotFound "aa:bb:cc:dd:ee:ff") :=
  ⟨rfl, rfl⟩

end HilDist
